import Mathlib

/-!
Verification of the constrained sequence generator of the
ffmpeg-processor repository.

This file is a shallow embedding of the algorithmic core of the
repository: the spacing-constrained sequence builders of
`sequence_generator.py` (`RealWorldItemGenerator.generate_sequence`,
`generate_sequence_flexible`, `_can_place_item`,
`_can_place_item_flexible`, `analyze_feasibility`,
`_get_feasibility_recommendation`, `_generate_available_items`,
`load_clips_from_csv`, `load_clips_from_csv_flexible`,
`export_sequence_to_csv`), the custom-mapping generator of
`generate_my_sequence.py` (`generate_sequence_with_custom_mapping`,
`generate_spaced_sequence`, `can_place_clip`) and the similarity
analysis of `item_generator_v2.py` (`calculate_sequence_similarity`).

Python dictionaries are modelled as association lists or as functions
built by successive updates, Python floats as exact rationals, raised
exceptions as `Except.error`, and the randomized choices of the
builders as an inductive relation that contains exactly the choices a
run of the code can make.
-/

namespace FfmpegProcessor



/-- A fixed-arity sequence item `(category, item_id, variation)` as used by
`RealWorldItemGenerator.generate_sequence` and
`ItemSequenceGenerator.generate_sequence`. -/
abbrev Item3 : Type := String × Nat × Nat

/-- Embeds `_can_place_item`, `_can_place_item_flexible`
(`sequence_generator.py` lines 438-451 and 294-309) and `can_place_clip`
(`generate_my_sequence.py` lines 174-187): the candidate may be placed at
the end of `seq` when none of the last `minSpacing` entries shares its
primary attribute.  The Python loop runs over indices
`max(0, len(seq) - min_spacing) .. len(seq) - 1`, which is precisely
`seq.drop (seq.length - minSpacing)` with truncated subtraction; for an
empty sequence the window is empty and the function returns `true`, which
matches the early `return True`. -/
def canPlaceItem {α : Type} (prim : α → String) (minSpacing : Nat)
    (seq : List α) (cand : α) : Bool :=
  (seq.drop (seq.length - minSpacing)).all (fun prev => prim prev != prim cand)

/-- The usage counter `category_counts[c]` maintained by the builders:
the number of already placed items whose primary attribute is `c`. -/
def catCount {α : Type} (prim : α → String) (seq : List α) (c : String) : Nat :=
  seq.countP (fun it => prim it == c)

/-- One-step-at-a-time model of the inner placement loop shared by
`RealWorldItemGenerator.generate_sequence` (lines 482-508) and
`generate_sequence_flexible` (lines 231-256).  State is the pair
(sequence built so far, remaining candidate items).  A step appends an
item `x` of the remaining pool such that

* its primary group is not over-represented
  (`category_counts[x[0]] < target_per_category + 2`, the code skips `x`
  when `category_counts[x[0]] >= target_per_category + 2`),
* the spacing check `_can_place_item` accepts it, and
* no remaining item with a strictly smaller usage count passes both
  checks: the code sorts the remaining items by ascending usage count
  (ties broken by `random.random()`) and places the first passing one,
  so every item sorted strictly before the placed one fails a check.

The placed item is removed from the remaining pool
(`remaining_items.pop(i)`).  Any run of the Python loop body produces a
chain of such steps, and every step of the relation is realizable by a
suitable initial shuffle and tie-breaking. -/
inductive Builds {α : Type} [DecidableEq α] (prim : α → String)
    (minSpacing targetPerCategory : Nat) (pool : List α) :
    List α → List α → Prop
  | nil : Builds prim minSpacing targetPerCategory pool [] pool
  | step {seq rem : List α} {x : α} :
      Builds prim minSpacing targetPerCategory pool seq rem →
      x ∈ rem →
      catCount prim seq (prim x) < targetPerCategory + 2 →
      canPlaceItem prim minSpacing seq x = true →
      (∀ y ∈ rem, catCount prim seq (prim y) < catCount prim seq (prim x) →
        ¬(catCount prim seq (prim y) < targetPerCategory + 2 ∧
          canPlaceItem prim minSpacing seq y = true)) →
      Builds prim minSpacing targetPerCategory pool (seq ++ [x]) (rem.erase x)

/-- `category_data`, the fixed-arity pool format of
`RealWorldItemGenerator`: an association list mapping a category name to
an association list mapping a variation index to the number of available
items (Python `Dict[str, Dict[int, int]]`). -/
abbrev CategoryData : Type := List (String × List (Nat × Nat))

/-- `self.category_data[category].get(variation, 0)`. -/
def varCountGetD (vc : List (Nat × Nat)) (v : Nat) : Nat :=
  (vc.lookup v).getD 0

/-- The items `_generate_available_items` produces for one category
(`sequence_generator.py` lines 424-436): when the category is present in
`category_data`, for every allowed variation `v` with count `n` the
tuples `(c, 1, v) .. (c, n, v)`; otherwise nothing. -/
def itemsForCat (data : CategoryData) (vars : List Nat) (c : String) :
    List Item3 :=
  match data.lookup c with
  | none => []
  | some vc =>
      vars.flatMap (fun v =>
        (List.range (varCountGetD vc v)).map (fun k => (c, k + 1, v)))

/-- `_generate_available_items(target_categories, allowed_variations)`:
the concatenation of the per-category item lists in category order. -/
def availableItems (data : CategoryData) (cats : List String)
    (vars : List Nat) : List Item3 :=
  cats.flatMap (itemsForCat data vars)

/-- The message of a Python `ZeroDivisionError`. -/
def zde : String := "ZeroDivisionError: division by zero"

/-- `available = sum(self.category_data[category].get(var, 0) for var in
allowed_variations)` (`analyze_feasibility`, lines 354-357).  The
analyzer only reaches this sum for categories present in
`category_data`; an absent category contributes the default 0. -/
def availableForCat (data : CategoryData) (vars : List Nat) (c : String) : Nat :=
  match data.lookup c with
  | none => 0
  | some vc => (vars.map (fun v => varCountGetD vc v)).sum

/-- `items_needed_per_category = sequence_length / num_categories`
(true float division, line 363).  Python floats are modelled as exact
rationals. -/
def neededPerCat (cats : List String) (L : Nat) : ℚ :=
  (L : ℚ) / (cats.length : ℚ)

/-- The categories appended to `bottleneck_categories` (lines 389-390):
those whose available count is below the needed count. -/
def bottleneckList (data : CategoryData) (cats : List String)
    (vars : List Nat) (L : Nat) : List String :=
  cats.filter (fun c =>
    decide ((availableForCat data vars c : ℚ) < neededPerCat cats L))

/-- `safety_ratio`: `available / needed` when `needed > 0`, otherwise
the float infinity (line 386); `none` models the infinite ratio. -/
def safetyRatio (available : Nat) (needed : ℚ) : Option ℚ :=
  if 0 < needed then some ((available : ℚ) / needed) else none

/-- The per-category safety ratios in category order. -/
def ratioList (data : CategoryData) (cats : List String) (vars : List Nat)
    (L : Nat) : List (Option ℚ) :=
  cats.map (fun c => safetyRatio (availableForCat data vars c) (neededPerCat cats L))

/-- Binary minimum on ratios where `none` is the float infinity. -/
def ratioMin : Option ℚ → Option ℚ → Option ℚ
  | none, r => r
  | some a, none => some a
  | some a, some b => some (min a b)

/-- The minimum over the per-category safety ratios (line 412), with
`none` both as the neutral starting value and as the float infinity —
the two coincide because the minimum of infinity and x is x. -/
def minRatio (rs : List (Option ℚ)) : Option ℚ :=
  rs.foldl ratioMin none

/-- The minimum safety ratio the recommendation helper receives for a
given analyzer input. -/
def minSafetyRatio (data : CategoryData) (cats : List String)
    (vars : List Nat) (L : Nat) : Option ℚ :=
  minRatio (ratioList data cats vars L)

/-- `_get_feasibility_recommendation` (lines 409-422), with the float
literals 2.0, 1.5 and 1.2 as the rationals 2, 3/2 and 6/5. -/
def getFeasibilityRecommendation (feasible : Bool)
    (bottlenecks : List String) (ratios : List (Option ℚ)) : String :=
  if feasible then
    match minRatio ratios with
    | none => "EXCELLENT - Plenty of items available"
    | some m =>
        if 2 < m then "EXCELLENT - Plenty of items available"
        else if 3/2 < m then "GOOD - Adequate items with safety margin"
        else if 6/5 < m then "MARGINAL - Should work but little room for error"
        else "RISKY - May fail due to spacing constraints"
  else
    "IMPOSSIBLE - Bottleneck categories: " ++ String.intercalate ", " bottlenecks

/-- The dictionary `analyze_feasibility` returns on its happy path. -/
structure FeasReport where
  basicFeasible : Bool
  allCategoriesFeasible : Bool
  totalAvailable : Nat
  totalNeeded : Nat
  itemsNeededPerCategory : ℚ
  availablePerCategory : List (String × Nat)
  maxPerCategoryWithSpacing : Nat
  bottleneckCategories : List String
  recommendation : String
  deriving DecidableEq

/-- `RealWorldItemGenerator.analyze_feasibility` (lines 337-407).  The
two error-dictionary return branches (no data loaded, category
missing) make the caller `generate_sequence` crash with a `KeyError`
when it reads the missing all_categories_feasible entry, and an empty category
list makes line 363 raise `ZeroDivisionError`; all three are modelled
as `Except.error`. -/
def analyzeFeasibility (data : CategoryData) (cats : List String)
    (vars : List Nat) (L ms : Nat) : Except String FeasReport :=
  if data.isEmpty then .error "No category data loaded"
  else if cats.any (fun c => (data.lookup c).isNone) then
    .error "Category not found in data"
  else if cats.length = 0 then .error zde
  else
    Except.ok
      { basicFeasible :=
          decide (L ≤ (cats.map (fun c => availableForCat data vars c)).sum)
        allCategoriesFeasible := (bottleneckList data cats vars L).isEmpty
        totalAvailable := (cats.map (fun c => availableForCat data vars c)).sum
        totalNeeded := L
        itemsNeededPerCategory := neededPerCat cats L
        availablePerCategory := cats.map (fun c => (c, availableForCat data vars c))
        maxPerCategoryWithSpacing := L / (ms + 1) + 1
        bottleneckCategories := bottleneckList data cats vars L
        recommendation :=
          getFeasibilityRecommendation (bottleneckList data cats vars L).isEmpty
            (bottleneckList data cats vars L) (ratioList data cats vars L) }

/-- The checks `generate_sequence` (lines 453-470) performs before any
construction attempt: the feasibility gate, raising
`ValueError(f"Sequence not feasible: {recommendation}")` when not all
categories are feasible, then the total-supply check raising
`ValueError("Not enough total items: ...")`. -/
def generateSequenceGate (data : CategoryData) (cats : List String)
    (vars : List Nat) (L ms : Nat) : Except String Unit :=
  match analyzeFeasibility data cats vars L ms with
  | .error e => .error e
  | .ok rep =>
      if !rep.allCategoriesFeasible then
        .error ("Sequence not feasible: " ++ rep.recommendation)
      else if (availableItems data cats vars).length < L then
        .error ("Not enough total items: have " ++
          toString (availableItems data cats vars).length ++ ", need " ++ toString L)
      else .ok ()

/-- A clip record of `generate_my_sequence.py`
(a dictionary with unique_id, name and category fields). -/
structure MClip where
  uniqueId : String
  name : String
  category : String
  deriving DecidableEq

/-- `target_length = len(all_clips) if len(all_clips) < target_length`
(`generate_spaced_sequence`, lines 146-147): the requested length is
clamped to the size of the pool before the placement loop runs. -/
def clampTarget (pool : List MClip) (target : Nat) : Nat :=
  if pool.length < target then pool.length else target

/-- The inner placement loop of `generate_spaced_sequence` (lines
150-164): repeatedly append any remaining clip accepted by
`can_place_clip` and remove it from the pool.  Unlike the
`RealWorldItemGenerator` loop there is no balance cap and no
usage-count sort; the clip placed at each step is the first passing one
in the shuffled order, so any passing clip is a possible choice. -/
inductive SpacedBuild (ms : Nat) (pool : List MClip) :
    List MClip → List MClip → Prop
  | nil : SpacedBuild ms pool [] pool
  | step {seq rem : List MClip} {x : MClip} :
      SpacedBuild ms pool seq rem →
      x ∈ rem →
      canPlaceItem MClip.category ms seq x = true →
      SpacedBuild ms pool (seq ++ [x]) (rem.erase x)

/-- The possible return values of `generate_spaced_sequence` (lines
126-172): either some attempt completes a sequence of the clamped
target length, or after 100 failed attempts the fallback returns a
fresh shuffle of the whole pool truncated to the clamped target
(`random.shuffle(all_clips); return all_clips[:target_length]`).  An
empty pool (`if not clips_by_category: return []`) is the fallback with
the empty permutation. -/
inductive SpacedResult (ms : Nat) (pool : List MClip) (target : Nat) :
    List MClip → Prop
  | success {seq rem : List MClip} :
      SpacedBuild ms pool seq rem →
      seq.length = clampTarget pool target →
      SpacedResult ms pool target seq
  | fallback {p : List MClip} :
      p.Perm pool →
      SpacedResult ms pool target (p.take (clampTarget pool target))

/-- A Python value occurring in an inventory key tuple: the CSV loader
stores string attribute values while the fixed-arity exporter builds
keys with integer variation indices; in Python the two compare
unequal. -/
inductive PyVal where
  | s (v : String)
  | n (v : Nat)
  deriving DecidableEq

/-- One CSV row as `csv.DictReader` yields it: the `clip name` cell,
the optional `video link` cell, and the attribute cells by column
name. -/
structure Row where
  clipName : String
  videoLink : Option String
  cells : List (String × String)
  deriving DecidableEq

/-- A filtered clip record built by `load_clips_from_csv_flexible`
(lines 53-77) for the two-level schema category, color. -/
structure Clip where
  name : String
  link : Option String
  category : String
  color : String
  deriving DecidableEq

/-- The row filter of `load_clips_from_csv_flexible` with
`variable_filters` mapping category to `cats` and color to `colors`:
the row is
kept only if both columns are present and their stripped values are
allowed; the checks run in filter insertion order and stop at the
first failure. -/
def rowToClip (cats colors : List String) (r : Row) : Option Clip :=
  match r.cells.lookup "category" with
  | none => none
  | some cv =>
      if cv.trim ∈ cats then
        match r.cells.lookup "color" with
        | none => none
        | some colv =>
            if colv.trim ∈ colors then
              some ⟨r.clipName.trim, r.videoLink.map String.trim, cv.trim, colv.trim⟩
            else none
      else none

/-- `filtered_clips` in source order. -/
def filteredClips (rows : List Row) (cats colors : List String) : List Clip :=
  rows.filterMap (rowToClip cats colors)

/-- `nested_data.get(c, {}).get(col, 0)` for the structure built by
`_build_nested_structure`: `create_nested_dict` creates a zeroed cell
for every pair of allowed values and each filtered clip increments its
own `(category, color)` cell, so the final cell value is the number of
filtered clips carrying that pair; pairs outside the grid read the
default 0, and no filtered clip carries such a pair. -/
def nestedCount (rows : List Row) (cats colors : List String)
    (c col : String) : Nat :=
  (filteredClips rows cats colors).countP
    (fun cl => cl.category == c && cl.color == col)

/-- The value dictionary stored in `self.clip_inventory` (lines
148-152). -/
structure ClipInfo where
  name : String
  link : String
  category : String
  color : String
  deriving DecidableEq

/-- The inventory construction loop of `_build_nested_structure` (lines
124-152): walking the filtered clips in order, each clip increments the
count of its `(category, color)` leaf and is stored under the key
`(category, color, item_id)` where `item_id` is the updated count; the
running counts are threaded as a function. -/
def buildInvAux : List Clip → (String → String → Nat) →
    List (List PyVal × ClipInfo)
  | [], _ => []
  | clip :: rest, counts =>
      ([PyVal.s clip.category, PyVal.s clip.color,
          PyVal.n (counts clip.category clip.color + 1)],
        ⟨clip.name, clip.link.getD "", clip.category, clip.color⟩) ::
      buildInvAux rest (fun c col =>
        if c = clip.category ∧ col = clip.color then
          counts clip.category clip.color + 1
        else counts c col)

/-- `self.clip_inventory` after `load_clips_from_csv_flexible` ran on
`rows` with the two-level filter. -/
def clipInventory (rows : List Row) (cats colors : List String) :
    List (List PyVal × ClipInfo) :=
  buildInvAux (filteredClips rows cats colors) (fun _ _ => 0)

/-- `key in self.clip_inventory` / `self.clip_inventory[key]`:
association-list lookup; keys are unique because each insertion uses a
fresh count. -/
def invLookup (inv : List (List PyVal × ClipInfo)) (k : List PyVal) :
    Option ClipInfo :=
  (inv.find? (fun e => decide (e.1 = k))).map Prod.snd

/-- Python `f"{item_id:02d}"`. -/
def pad2 (n : Nat) : String :=
  if n < 10 then "0" ++ toString n else toString n

/-- `self.index_color_map = {idx: color ...}` built by
`load_clips_from_csv` (line 184) from `color_to_index = {color: idx + 1
for idx, color in enumerate(target_colors)}`. -/
def indexColorMap (colors : List String) : List (Nat × String) :=
  colors.enum.map (fun p => (p.1 + 1, p.2))

/-- `self.index_color_map.get(variation, f"var{variation}")` (line
591). -/
def lookupIndexColor (m : List (Nat × String)) (v : Nat) : String :=
  (m.lookup v).getD ("var" ++ toString v)

/-- One output row of `export_sequence_to_csv` (lines 584-592) for the
sequence item `(category, item_id, variation)`: the code builds the
lookup key as `(category, variation, item_id)` — the integer variation
index in the middle — and falls back to the synthesized
`f"{category}_item{item_id:02d}_{color}"` with an empty link when the
key is not in the inventory. -/
def exportRowFixed (inv : List (List PyVal × ClipInfo))
    (icm : List (Nat × String)) (itemNo : Nat) (it : Item3) :
    Nat × String × String :=
  match invLookup inv [PyVal.s it.1, PyVal.n it.2.2, PyVal.n it.2.1] with
  | some cd => (itemNo, cd.name, cd.link)
  | none =>
      (itemNo,
        it.1 ++ "_item" ++ pad2 it.2.1 ++ "_" ++ lookupIndexColor icm it.2.2,
        "")

/-- The data rows `export_sequence_to_csv` writes (1-based
`item_no`). -/
def exportSequenceFixed (inv : List (List PyVal × ClipInfo))
    (icm : List (Nat × String)) (seq : List Item3) :
    List (Nat × String × String) :=
  seq.enum.map (fun p => exportRowFixed inv icm (p.1 + 1) p.2)

/-- A Python dictionary built by successive `d[g a] = f a` assignments
over a list, modelled as a function update chain: later assignments to
the same key overwrite earlier ones. -/
def buildDict {κ ν α : Type} [DecidableEq κ] (g : α → κ) (f : α → ν) :
    List α → (κ → Option ν) → (κ → Option ν)
  | [], m => m
  | a :: rest, m =>
      buildDict g f rest (fun k => if k = g a then some (f a) else m k)

/-- The dict comprehension `{color: idx + 1 for idx, color in
enumerate(target_colors)}` (line 173), threaded with the running
index. -/
def colorToIndexAux : Nat → List String → (String → Option Nat) →
    (String → Option Nat)
  | _, [], m => m
  | k, c :: rest, m =>
      colorToIndexAux (k + 1) rest
        (fun col => if col = c then some (k + 1) else m col)

/-- `color_to_index` as a lookup function. -/
def colorToIndex (colors : List String) : String → Option Nat :=
  colorToIndexAux 0 colors (fun _ => none)

/-- `color_to_index[color]`; the loader only queries colors of the
target list, for which the lookup succeeds, so the 0 default is never
read. -/
def colorIndexD (colors : List String) (col : String) : Nat :=
  (colorToIndex colors col).getD 0

/-- The conversion loop of `load_clips_from_csv` (lines 171-180):
`category_data[category][color_to_index[color]] =
nested_data.get(category, {}).get(color, 0)` for every category and
color of the request. -/
def categoryDataFixed (rows : List Row) (cats colors : List String) :
    String → Option (Nat → Option Nat) :=
  buildDict id
    (fun c =>
      buildDict (colorIndexD colors)
        (fun col => nestedCount rows cats colors c col) colors
        (fun _ => none))
    cats (fun _ => none)

/-- `category_data[c][i]` as an optional value (`none` when either key
is absent). -/
def categoryDataAt (rows : List Row) (cats colors : List String)
    (c : String) (i : Nat) : Option Nat :=
  match categoryDataFixed rows cats colors c with
  | none => none
  | some inner => inner i

/-- `common_items = sum(min(content1[item], content2[item]) for item in
content1 if item in content2)` (`calculate_sequence_similarity`,
`item_generator_v2.py`): the `Counter` keys are the distinct items of
`seq1` and membership in `content2` is membership in `seq2`. -/
def commonItemsCount (s1 s2 : List Item3) : Nat :=
  ((s1.dedup.filter (fun x => decide (x ∈ s2))).map
    (fun x => min (s1.count x) (s2.count x))).sum

/-- `sum(min(cat_dist1[cat], cat_dist2[cat]) for cat in cat_dist1)`;
a missing counter key reads as 0. -/
def categoryCommonCount (s1 s2 : List Item3) : Nat :=
  ((s1.map Prod.fst).dedup.map
    (fun c => min ((s1.map Prod.fst).count c) ((s2.map Prod.fst).count c))).sum

/-- `len(unique_items1.intersection(unique_items2))`. -/
def uniqueOverlapCount (s1 s2 : List Item3) : Nat :=
  (s1.dedup.filter (fun x => decide (x ∈ s2))).length

/-- `len(unique_items1.union(unique_items2))`. -/
def totalUniqueCount (s1 s2 : List Item3) : Nat :=
  ((s1 ++ s2).dedup).length

/-- The similarity dictionary `calculate_sequence_similarity` returns
(hash strings omitted; the md5 comparison of the printed sequences is
modelled as structural equality, exact up to hash collisions; see
`simResOf` for the field values). -/
structure SimRes where
  positionalSimilarity : ℚ
  contentSimilarity : ℚ
  categorySimilarity : ℚ
  uniqueItemsSimilarity : ℚ
  exactDuplicate : Bool
  commonItems : Nat
  uniqueOverlap : Nat
  totalUnique : Nat
  deriving DecidableEq

/-- A normal return of `calculate_sequence_similarity`: either the
error dictionary for sequences of different lengths, or the
metrics dictionary. -/
inductive SimReturn where
  | errDict (msg : String)
  | res (r : SimRes)
  deriving DecidableEq

/-- The metric record of `calculate_sequence_similarity` on its happy
path: exact positional matches over the length, the common-items sum
over the length, the category overlap over the length, and the
distinct-item Jaccard numerator over the union size. -/
def simResOf (s1 s2 : List Item3) : SimRes :=
  { positionalSimilarity :=
      (((List.zip s1 s2).countP (fun p => p.1 == p.2) : Nat) : ℚ) /
        (s1.length : ℚ)
    contentSimilarity := (commonItemsCount s1 s2 : ℚ) / (s1.length : ℚ)
    categorySimilarity := (categoryCommonCount s1 s2 : ℚ) / (s1.length : ℚ)
    uniqueItemsSimilarity :=
      (uniqueOverlapCount s1 s2 : ℚ) / (totalUniqueCount s1 s2 : ℚ)
    exactDuplicate := decide (s1 = s2)
    commonItems := commonItemsCount s1 s2
    uniqueOverlap := uniqueOverlapCount s1 s2
    totalUnique := totalUniqueCount s1 s2 }

/-- `calculate_sequence_similarity(seq1, seq2)`
(`item_generator_v2.py` lines 550-601).  Different lengths return the
error dictionary (a normal return, not an exception).  The divisions
by `len(seq1)` (positional, content, category similarity) and by the
union size raise `ZeroDivisionError` when the divisor is 0; the two
guards are hoisted in front of the pure record — the first one fires
exactly when the Python code raises while computing
`positional_similarity`, and the second can only fire when the first
does, keeping the modelled behaviour identical. -/
def calcSequenceSimilarity (s1 s2 : List Item3) : Except String SimReturn :=
  if s1.length ≠ s2.length then
    Except.ok (SimReturn.errDict "Sequences have different lengths")
  else if s1.length = 0 then Except.error zde
  else if totalUniqueCount s1 s2 = 0 then Except.error zde
  else Except.ok (SimReturn.res (simResOf s1 s2))

/-- The multiset overlap as claim C9 words it: the sum, over the
distinct items occurring in either sequence, of the minimum of the
occurrence counts of that item in the two sequences. -/
def specMultisetOverlap (s1 s2 : List Item3) : Nat :=
  (((s1 ++ s2).dedup).map (fun x => min (s1.count x) (s2.count x))).sum

/-- The recommendation mapping exactly as claim C4 words it, for
comparison with the code: EXCELLENT above 2.0, GOOD on 1.5-2.0,
MARGINAL on 1.2-1.5 and RISKY only at ratios at least 1.0 but strictly
below 1.2, so the ratio exactly 1.2 falls in the MARGINAL band. -/
def claimedRecommendation (r : ℚ) : String :=
  if 2 < r then "EXCELLENT - Plenty of items available"
  else if 3/2 ≤ r then "GOOD - Adequate items with safety margin"
  else if 6/5 ≤ r then "MARGINAL - Should work but little room for error"
  else "RISKY - May fail due to spacing constraints"

/-- The single-level instantiation of
`_generate_available_items_flexible` (lines 263-292): for each allowed
primary value present in the nested count structure, the tuples
`(value, 1) .. (value, count)`. -/
def availableItemsFlexSingle (nested : List (String × Nat))
    (allowed : List String) : List (String × Nat) :=
  allowed.flatMap (fun v =>
    match nested.lookup v with
    | none => []
    | some cnt => (List.range cnt).map (fun k => (v, k + 1)))

/-- The only check `generate_sequence_flexible` performs before its
attempt loop (lines 217-218): the total-supply comparison.  No
feasibility analysis is run on this path. -/
def flexGate (avail : List (String × Nat)) (L : Nat) : Except String Unit :=
  if avail.length < L then
    Except.error ("Not enough total items: have " ++
      toString avail.length ++ ", need " ++ toString L)
  else Except.ok ()

/-- Example pool: category a with two items of variation 1, category b
with one. -/
def dataEx : CategoryData := [("a", [(1, 2)]), ("b", [(1, 1)])]

/-- The same inventory in the single-level nested format of the
flexible loader. -/
def nestedFlexEx : List (String × Nat) := [("a", 2), ("b", 1)]

/-- A pool whose only category has a single item: any request of length
two is infeasible. -/
def dataInfeas : CategoryData := [("a", [(1, 1)])]

/-- What `analyze_feasibility(["a"], [1], 2)` returns on `dataInfeas`
with `min_spacing = 2`. -/
def repInfeas : FeasReport :=
  { basicFeasible := false
    allCategoriesFeasible := false
    totalAvailable := 1
    totalNeeded := 2
    itemsNeededPerCategory := 2
    availablePerCategory := [("a", 1)]
    maxPerCategoryWithSpacing := 1
    bottleneckCategories := ["a"]
    recommendation := "IMPOSSIBLE - Bottleneck categories: a" }

/-- A pool with exactly six items where five are needed: the minimum
safety ratio is exactly 1.2. -/
def dataRisky : CategoryData := [("a", [(1, 6)])]

/-- What `analyze_feasibility(["a"], [1], 5)` returns on `dataRisky`
with `min_spacing = 2`. -/
def repRisky : FeasReport :=
  { basicFeasible := true
    allCategoriesFeasible := true
    totalAvailable := 6
    totalNeeded := 5
    itemsNeededPerCategory := 5
    availablePerCategory := [("a", 6)]
    maxPerCategoryWithSpacing := 2
    bottleneckCategories := []
    recommendation := "RISKY - May fail due to spacing constraints" }

/-- Pool data with a single duplicated requested category. -/
def dataDup : CategoryData := [("a", [(1, 2)])]

/-- One clip for the custom-mapping generator examples. -/
def mclipA : MClip := ⟨"id1", "clip one", "catX"⟩

/-- A one-clip CSV: `clip name = clipA`, `video link = urlA`,
category `cooking`, color `red`. -/
def rowsExport : List Row :=
  [⟨"clipA", some "urlA", [("category", "cooking"), ("color", "red")]⟩]

/-- The clip inventory the loader builds from `rowsExport`. -/
def invExport : List (List PyVal × ClipInfo) :=
  clipInventory rowsExport ["cooking"] ["red"]

/-- Two rows of one category and two colors, for the loader
equivalence witness. -/
def rowsRT : List Row :=
  [⟨"n1", none, [("category", "a"), ("color", "red")]⟩,
   ⟨"n2", none, [("category", "a"), ("color", "blue")]⟩]

/-- One row, loaded with a duplicated target color list. -/
def rowsDup : List Row :=
  [⟨"n", none, [("category", "a"), ("color", "red")]⟩]

/-- An element at a position at or past the start of the drop window is a
member of the dropped suffix. -/
lemma get_mem_drop {α : Type} (l : List α) (k : Nat) {i : Nat}
    (h : i < l.length) (hk : k ≤ i) : l.get ⟨i, h⟩ ∈ l.drop k := by
  have hlen : i - k < (l.drop k).length := by
    simp only [List.length_drop]
    omega
  have hgot : (l.drop k).get ⟨i - k, hlen⟩ = l.get ⟨i, h⟩ := by
    simp only [List.get_eq_getElem, List.getElem_drop]
    congr 1
    omega
  rw [← hgot]
  exact List.get_mem _ _ _

/-- C1.  Spacing invariant: every sequence reachable by the strict-mode
builder loop satisfies: for all positions `i < j` whose items share the
primary attribute value, `j - i > min_spacing`.  This covers both
`generate_sequence` (items `Item3`, primary `Prod.fst`) and
`generate_sequence_flexible` (tuples whose first component is the
primary value), since both instantiate the same loop modelled by
`Builds`. -/
theorem builder_spacing_invariant {α : Type} [DecidableEq α]
    (prim : α → String) {ms target : Nat} {pool seq rem : List α}
    (h : Builds prim ms target pool seq rem) :
    ∀ i j, ∀ hj : j < seq.length, ∀ hi : i < j,
      prim (seq.get ⟨j, hj⟩) =
        prim (seq.get ⟨i, Nat.lt_trans hi hj⟩) → ms < j - i := by
  induction h with
  | nil =>
      intro i j hj hi
      simp at hj
  | @step seq rem x hb hmem hcap hplace hmin ih =>
      intro i j hj hi heq
      have hlen : (seq ++ [x]).length = seq.length + 1 := by simp
      by_cases hjlt : j < seq.length
      · have hilt : i < seq.length := Nat.lt_trans hi hjlt
        have hgj : (seq ++ [x]).get ⟨j, hj⟩ = seq.get ⟨j, hjlt⟩ := by
          simp [List.get_eq_getElem, List.getElem_append_left hjlt]
        have hgi : (seq ++ [x]).get ⟨i, Nat.lt_trans hi hj⟩ =
            seq.get ⟨i, hilt⟩ := by
          simp [List.get_eq_getElem, List.getElem_append_left hilt]
        exact ih i j hjlt hi (by rw [hgj, hgi] at heq; exact heq)
      · have hjeq : j = seq.length := by omega
        have hilt : i < seq.length := by omega
        have hgj : (seq ++ [x]).get ⟨j, hj⟩ = x := by
          subst hjeq
          simp [List.get_eq_getElem]
        have hgi : (seq ++ [x]).get ⟨i, Nat.lt_trans hi hj⟩ =
            seq.get ⟨i, hilt⟩ := by
          simp [List.get_eq_getElem, List.getElem_append_left hilt]
        rw [hgj, hgi] at heq
        by_contra hcon
        have hik : seq.length - ms ≤ i := by omega
        have hmemdrop : seq.get ⟨i, hilt⟩ ∈ seq.drop (seq.length - ms) :=
          get_mem_drop seq _ hilt hik
        have hall := List.all_eq_true.mp hplace _ hmemdrop
        rw [bne_iff_ne] at hall
        exact hall (heq.symm)

/-- C5.  Balance bound: the builder loop never lets a primary group grow
past `target_per_category + 2`.  In both builders the code skips a
candidate whenever `category_counts[candidate_primary] >=
target_per_category + 2`, so an item is placed only while its group
count is at most `target_per_category + 1`; the count after placement
is therefore at most `target_per_category + 2`.  Instantiated with
`targetPerCategory = sequence_length / number_of_primary_groups`
(Python integer division, lines 480 and 229) this is the bound of the
claim. -/
theorem builder_balance_bound {α : Type} [DecidableEq α]
    (prim : α → String) {ms target : Nat} {pool seq rem : List α}
    (h : Builds prim ms target pool seq rem) :
    ∀ c : String, catCount prim seq c ≤ target + 2 := by
  induction h with
  | nil =>
      intro c
      simp [catCount]
  | @step seq rem x hb hmem hcap hplace hmin ih =>
      intro c
      have hsplit : catCount prim (seq ++ [x]) c =
          catCount prim seq c + (if prim x == c then 1 else 0) := by
        simp [catCount, List.countP_append, List.countP_cons]
      rw [hsplit]
      cases hbe : (prim x == c) with
      | true =>
          have hxc : prim x = c := eq_of_beq hbe
          rw [hxc] at hcap
          simp only [if_true]
          omega
      | false =>
          simp only [Bool.false_eq_true, if_false]
          have := ih c
          omega

/-- C7.  `min_spacing = 0` support: with `minSpacing = 0` the placement
check examines the window `seq.drop (seq.length - 0) = []`, mirroring the
empty Python range `range(max(0, len(seq) - 0), len(seq))`, so every
candidate is accepted against every partial sequence, including one
whose last entry has the same primary category. -/
theorem can_place_item_zero_spacing {α : Type} (prim : α → String)
    (seq : List α) (cand : α) : canPlaceItem prim 0 seq cand = true := by
  simp [canPlaceItem]

/-- Every item generated for category `c` carries `c` as its first
component. -/
lemma itemsForCat_fst {data : CategoryData} {vars : List Nat} {c : String}
    {x : Item3} (hx : x ∈ itemsForCat data vars c) : x.1 = c := by
  unfold itemsForCat at hx
  cases hval : data.lookup c with
  | none => rw [hval] at hx; simp at hx
  | some vc =>
      rw [hval] at hx
      rcases List.mem_flatMap.mp hx with ⟨v, _, hmap⟩
      rcases List.mem_map.mp hmap with ⟨k, _, rfl⟩
      rfl

/-- The item list of a single category has no duplicates when the
allowed variation list has none. -/
lemma itemsForCat_nodup (data : CategoryData) {vars : List Nat}
    (hv : vars.Nodup) (c : String) : (itemsForCat data vars c).Nodup := by
  unfold itemsForCat
  cases data.lookup c with
  | none => exact List.nodup_nil
  | some vc =>
      refine List.nodup_flatMap.mpr ⟨?_, ?_⟩
      · intro v _
        refine List.Nodup.map ?_ (List.nodup_range _)
        intro k1 k2 hk
        have : k1 + 1 = k2 + 1 := congrArg (fun t : Item3 => t.2.1) hk
        omega
      · refine hv.imp ?_
        intro v1 v2 hne
        intro a ha1 ha2
        rcases List.mem_map.mp ha1 with ⟨k1, _, rfl⟩
        rcases List.mem_map.mp ha2 with ⟨k2, _, heq⟩
        exact hne (congrArg (fun t : Item3 => t.2.2) heq.symm)

/-- The candidate pool generated by `_generate_available_items` has no
duplicate tuples when the requested category and variation lists have no
duplicates. -/
lemma availableItems_nodup (data : CategoryData) {cats : List String}
    {vars : List Nat} (hc : cats.Nodup) (hv : vars.Nodup) :
    (availableItems data cats vars).Nodup := by
  refine List.nodup_flatMap.mpr ⟨?_, ?_⟩
  · intro c _
    exact itemsForCat_nodup data hv c
  · refine hc.imp ?_
    intro c1 c2 hne
    intro a ha1 ha2
    exact hne ((itemsForCat_fst ha1).symm.trans (itemsForCat_fst ha2))

/-- The builder loop only moves items from the remaining pool to the
sequence: the built sequence together with the remaining items is a
permutation of the initial pool. -/
lemma builds_append_perm {α : Type} [DecidableEq α] (prim : α → String)
    {ms target : Nat} {pool seq rem : List α}
    (h : Builds prim ms target pool seq rem) : (seq ++ rem).Perm pool := by
  induction h with
  | nil => exact List.Perm.refl pool
  | @step seq rem x hb hmem hcap hplace hmin ih =>
      have h1 : (seq ++ [x] ++ rem.erase x).Perm (seq ++ (x :: rem.erase x)) := by
        rw [List.append_assoc]
        exact List.Perm.refl _
      have h2 : (x :: rem.erase x).Perm rem :=
        (List.perm_cons_erase hmem).symm
      exact h1.trans ((List.Perm.append_left seq h2).trans ih)

/-- A sequence built from a duplicate-free pool has no duplicates. -/
lemma builds_nodup {α : Type} [DecidableEq α] (prim : α → String)
    {ms target : Nat} {pool seq rem : List α}
    (h : Builds prim ms target pool seq rem) (hpool : pool.Nodup) :
    seq.Nodup := by
  have hperm := builds_append_perm prim h
  have : (seq ++ rem).Nodup := (hperm.nodup_iff).mpr hpool
  exact this.of_append_left

/-- C6 (amended).  No duplicate placement: when the requested category
and variation lists are duplicate-free, the pool generated by
`_generate_available_items` is duplicate-free, and every sequence the
builder loop reaches from it contains each inventory tuple at most
once.  (With a duplicated request list the pool itself repeats tuples
and the builder can place both copies, see the counterexample.) -/
theorem generate_sequence_no_duplicates {data : CategoryData}
    {cats : List String} {vars : List Nat} {ms t : Nat}
    {seq rem : List Item3} (hc : cats.Nodup) (hv : vars.Nodup)
    (h : Builds Prod.fst ms t (availableItems data cats vars) seq rem) :
    seq.Nodup :=
  builds_nodup Prod.fst h (availableItems_nodup data hc hv)

/-- C3 (amended).  `generate_sequence` runs the feasibility analysis
before any construction attempt and, whenever the analyzer finds a
bottleneck (its recommendation is the IMPOSSIBLE one), raises
`ValueError` instead of entering the randomized search.  The flexible
builder `generate_sequence_flexible` performs no such analysis — see
the counterexample accompanying this claim. -/
theorem feasibility_gate_strict (data : CategoryData) (cats : List String)
    (vars : List Nat) (L ms : Nat) (rep : FeasReport)
    (h : analyzeFeasibility data cats vars L ms = Except.ok rep)
    (hb : rep.bottleneckCategories ≠ []) :
    rep.recommendation = "IMPOSSIBLE - Bottleneck categories: " ++
      String.intercalate ", " rep.bottleneckCategories ∧
    generateSequenceGate data cats vars L ms =
      Except.error ("Sequence not feasible: " ++ rep.recommendation) := by
  have h0 := h
  revert h
  unfold analyzeFeasibility
  split
  · intro h; simp at h
  · split
    · intro h; simp at h
    · split
      · intro h; simp at h
      · intro h
        have hrep := (Except.ok.inj h).symm
        subst hrep
        have hb2 : bottleneckList data cats vars L ≠ [] := hb
        have hne : (bottleneckList data cats vars L).isEmpty = false := by
          simpa [List.isEmpty_iff] using hb2
        have hrec : FeasReport.recommendation
            { basicFeasible :=
                decide (L ≤ (cats.map (fun c => availableForCat data vars c)).sum)
              allCategoriesFeasible := (bottleneckList data cats vars L).isEmpty
              totalAvailable := (cats.map (fun c => availableForCat data vars c)).sum
              totalNeeded := L
              itemsNeededPerCategory := neededPerCat cats L
              availablePerCategory :=
                cats.map (fun c => (c, availableForCat data vars c))
              maxPerCategoryWithSpacing := L / (ms + 1) + 1
              bottleneckCategories := bottleneckList data cats vars L
              recommendation :=
                getFeasibilityRecommendation
                  (bottleneckList data cats vars L).isEmpty
                  (bottleneckList data cats vars L)
                  (ratioList data cats vars L) } =
            "IMPOSSIBLE - Bottleneck categories: " ++
              String.intercalate ", " (bottleneckList data cats vars L) := by
          show getFeasibilityRecommendation
              (bottleneckList data cats vars L).isEmpty
              (bottleneckList data cats vars L)
              (ratioList data cats vars L) = _
          unfold getFeasibilityRecommendation
          rw [hne]
          simp
        refine ⟨hrec, ?_⟩
        unfold generateSequenceGate
        rw [h0]
        simp only [hne, Bool.not_false, if_true]

/-- C4 (amended).  The recommendation thresholds of
`_get_feasibility_recommendation`, with their exact boundary behaviour:
with no bottleneck group and minimum safety ratio `r`, the
recommendation is EXCELLENT for `r > 2`, GOOD for `1.5 < r ≤ 2`,
MARGINAL for `1.2 < r ≤ 1.5` and RISKY for `r ≤ 1.2` (in particular
RISKY, not MARGINAL, at exactly `r = 1.2`); with a bottleneck group
the recommendation is the IMPOSSIBLE message naming the offending
groups. -/
theorem recommendation_thresholds (data : CategoryData)
    (cats : List String) (vars : List Nat) (L ms : Nat) (rep : FeasReport)
    (h : analyzeFeasibility data cats vars L ms = Except.ok rep) :
    (rep.bottleneckCategories = [] →
      ∀ r : ℚ, minSafetyRatio data cats vars L = some r →
        ((2 < r → rep.recommendation = "EXCELLENT - Plenty of items available") ∧
         (3/2 < r → r ≤ 2 →
           rep.recommendation = "GOOD - Adequate items with safety margin") ∧
         (6/5 < r → r ≤ 3/2 →
           rep.recommendation = "MARGINAL - Should work but little room for error") ∧
         (r ≤ 6/5 →
           rep.recommendation = "RISKY - May fail due to spacing constraints"))) ∧
    (rep.bottleneckCategories ≠ [] →
      rep.recommendation = "IMPOSSIBLE - Bottleneck categories: " ++
        String.intercalate ", " rep.bottleneckCategories) := by
  revert h
  unfold analyzeFeasibility
  split
  · intro h; simp at h
  · split
    · intro h; simp at h
    · split
      · intro h; simp at h
      · intro h
        have hrep := (Except.ok.inj h).symm
        subst hrep
        constructor
        · intro hempty r hr
          have hempty2 : bottleneckList data cats vars L = [] := hempty
          have hne : (bottleneckList data cats vars L).isEmpty = true := by
            simp [hempty2]
          have hmin : minRatio (ratioList data cats vars L) = some r := hr
          refine ⟨?_, ?_, ?_, ?_⟩
          · intro h2
            show getFeasibilityRecommendation
                (bottleneckList data cats vars L).isEmpty
                (bottleneckList data cats vars L)
                (ratioList data cats vars L) = _
            unfold getFeasibilityRecommendation
            rw [hne, hmin]
            simp only [if_true]
            rw [if_pos h2]
          · intro h32 hle2
            show getFeasibilityRecommendation
                (bottleneckList data cats vars L).isEmpty
                (bottleneckList data cats vars L)
                (ratioList data cats vars L) = _
            unfold getFeasibilityRecommendation
            rw [hne, hmin]
            simp only [if_true]
            rw [if_neg (by exact not_lt.mpr hle2), if_pos h32]
          · intro h65 hle32
            show getFeasibilityRecommendation
                (bottleneckList data cats vars L).isEmpty
                (bottleneckList data cats vars L)
                (ratioList data cats vars L) = _
            unfold getFeasibilityRecommendation
            rw [hne, hmin]
            simp only [if_true]
            rw [if_neg (by exact not_lt.mpr (by linarith)),
              if_neg (by exact not_lt.mpr hle32), if_pos h65]
          · intro hle65
            show getFeasibilityRecommendation
                (bottleneckList data cats vars L).isEmpty
                (bottleneckList data cats vars L)
                (ratioList data cats vars L) = _
            unfold getFeasibilityRecommendation
            rw [hne, hmin]
            simp only [if_true]
            rw [if_neg (by exact not_lt.mpr (by linarith)),
              if_neg (by exact not_lt.mpr (by linarith)),
              if_neg (by exact not_lt.mpr hle65)]
        · intro hb
          have hb2 : bottleneckList data cats vars L ≠ [] := hb
          have hne : (bottleneckList data cats vars L).isEmpty = false := by
            simpa [List.isEmpty_iff] using hb2
          show getFeasibilityRecommendation
              (bottleneckList data cats vars L).isEmpty
              (bottleneckList data cats vars L)
              (ratioList data cats vars L) = _
          unfold getFeasibilityRecommendation
          rw [hne]
          simp

/-- C2 (amended).  Length correctness with clamping holds for the
custom-mapping builder `generate_spaced_sequence`: every value it can
return — through the constrained loop or through the best-effort
fallback — has length `min(target_length, total_available_clips)`.
The fixed-arity builder `RealWorldItemGenerator.generate_sequence`
does not clamp; it raises `ValueError` instead (see the accompanying
counterexample on `generateSequenceGate`). -/
theorem spaced_sequence_length {ms : Nat} {pool : List MClip}
    {target : Nat} {out : List MClip}
    (h : SpacedResult ms pool target out) :
    out.length = min target pool.length := by
  have hclamp : clampTarget pool target = min target pool.length := by
    unfold clampTarget
    rcases Nat.lt_or_ge pool.length target with hlt | hge
    · rw [if_pos hlt]
      omega
    · rw [if_neg (by omega)]
      omega
  cases h with
  | success hb hlen => rw [hlen, hclamp]
  | @fallback p hperm =>
      rw [List.length_take, hclamp]
      have hlen : p.length = pool.length := hperm.length_eq
      omega

/-- Keys never assigned keep their initial binding. -/
lemma buildDict_preserve {κ ν α : Type} [DecidableEq κ] (g : α → κ)
    (f : α → ν) : ∀ (l : List α) (m : κ → Option ν) (k : κ),
    (∀ y ∈ l, g y ≠ k) → buildDict g f l m k = m k := by
  intro l
  induction l with
  | nil => intro m k _; rfl
  | cons a rest ih =>
      intro m k hk
      have hne : g a ≠ k := hk a (List.mem_cons_self a rest)
      have hstep : buildDict g f (a :: rest) m k =
          buildDict g f rest (fun q => if q = g a then some (f a) else m q) k := rfl
      rw [hstep, ih _ k (fun y hy => hk y (List.mem_cons_of_mem a hy))]
      have hk2 : ¬(k = g a) := fun h => hne h.symm
      simp [hk2]

/-- If every assignment to key `k` writes the value `v` and `k` is
already bound to `v`, the final dictionary still binds `k` to `v`. -/
lemma buildDict_agree {κ ν α : Type} [DecidableEq κ] (g : α → κ)
    (f : α → ν) : ∀ (l : List α) (m : κ → Option ν) (k : κ) (v : ν),
    (∀ y ∈ l, g y = k → f y = v) → m k = some v →
    buildDict g f l m k = some v := by
  intro l
  induction l with
  | nil => intro m k v _ hm; exact hm
  | cons a rest ih =>
      intro m k v hl hm
      have : buildDict g f (a :: rest) m k =
          buildDict g f rest (fun q => if q = g a then some (f a) else m q) k := rfl
      rw [this]
      refine ih _ k v (fun y hy hk => hl y (List.mem_cons_of_mem a hy) hk) ?_
      by_cases hck : k = g a
      · rw [if_pos hck]
        rw [hl a (List.mem_cons_self a rest) hck.symm]
      · rw [if_neg hck]
        exact hm

/-- Final lookup of a key that some list element assigns, provided all
elements assigning that key agree on the value. -/
lemma buildDict_lookup {κ ν α : Type} [DecidableEq κ] (g : α → κ)
    (f : α → ν) : ∀ (l : List α) (m : κ → Option ν) (x : α),
    x ∈ l → (∀ y ∈ l, g y = g x → f y = f x) →
    buildDict g f l m (g x) = some (f x) := by
  intro l
  induction l with
  | nil => intro m x hx; exact absurd hx (List.not_mem_nil x)
  | cons a rest ih =>
      intro m x hx hagree
      have hstep : buildDict g f (a :: rest) m (g x) =
          buildDict g f rest (fun q => if q = g a then some (f a) else m q) (g x) := rfl
      rw [hstep]
      by_cases hxr : x ∈ rest
      · exact ih _ x hxr (fun y hy => hagree y (List.mem_cons_of_mem a hy))
      · have hxa : x = a := by
          rcases List.mem_cons.mp hx with h | h
          · exact h
          · exact absurd h hxr
        subst hxa
        refine buildDict_agree g f rest _ (g x) (f x)
          (fun y hy hk => hagree y (List.mem_cons_of_mem x hy) hk) ?_
        rw [if_pos rfl]

/-- A color absent from the remaining list keeps its current index. -/
lemma colorToIndexAux_not_mem : ∀ (l : List String) (k0 : Nat)
    (m : String → Option Nat) (col : String), col ∉ l →
    colorToIndexAux k0 l m col = m col := by
  intro l
  induction l with
  | nil => intro k0 m col _; rfl
  | cons c rest ih =>
      intro k0 m col hcol
      have hne : col ≠ c := fun h => hcol (h ▸ List.mem_cons_self c rest)
      have hnr : col ∉ rest := fun h => hcol (List.mem_cons_of_mem c h)
      have : colorToIndexAux k0 (c :: rest) m col =
          colorToIndexAux (k0 + 1) rest
            (fun q => if q = c then some (k0 + 1) else m q) col := rfl
      rw [this, ih _ _ col hnr]
      simp [hne]

/-- In a duplicate-free color list the comprehension maps the `j`-th
color to index `offset + j + 1`. -/
lemma colorToIndexAux_get : ∀ (l : List String) (k0 : Nat)
    (m : String → Option Nat) (j : Nat) (h : j < l.length), l.Nodup →
    colorToIndexAux k0 l m (l.get ⟨j, h⟩) = some (k0 + j + 1) := by
  intro l
  induction l with
  | nil => intro k0 m j h; simp at h
  | cons c rest ih =>
      intro k0 m j h hnd
      have hstep : ∀ col, colorToIndexAux k0 (c :: rest) m col =
          colorToIndexAux (k0 + 1) rest
            (fun q => if q = c then some (k0 + 1) else m q) col :=
        fun col => rfl
      cases j with
      | zero =>
          have hget : (c :: rest).get ⟨0, h⟩ = c := rfl
          rw [hget, hstep]
          have hcnr : c ∉ rest := (List.nodup_cons.mp hnd).1
          rw [colorToIndexAux_not_mem rest _ _ c hcnr]
          simp
      | succ j0 =>
          have hlen : j0 < rest.length := by
            have := h
            simp at this
            omega
          have hget : (c :: rest).get ⟨j0 + 1, h⟩ = rest.get ⟨j0, hlen⟩ := rfl
          rw [hget, hstep]
          have := ih (k0 + 1) (fun q => if q = c then some (k0 + 1) else m q)
            j0 hlen (List.nodup_cons.mp hnd).2
          rw [this]
          congr 1
          omega

/-- In a duplicate-free color list, `color_to_index` of the `j`-th
color is `j + 1`. -/
lemma colorIndexD_get (colors : List String) (hnd : colors.Nodup)
    (j : Nat) (h : j < colors.length) :
    colorIndexD colors (colors.get ⟨j, h⟩) = j + 1 := by
  unfold colorIndexD colorToIndex
  rw [colorToIndexAux_get colors 0 _ j h hnd]
  simp

/-- C10 (amended).  Backward-compatible loader equivalence: for a
duplicate-free color list, the fixed-arity `load_clips_from_csv`
output at category `c` and color index `i` is exactly the flexible
count of `(c, colors[i-1])`, i.e. the fixed loader is the
color-to-index reindexing of `load_clips_from_csv_flexible`.  (With a
duplicated color list the index dictionary collapses and index 1 is
unbound, see the counterexample.) -/
theorem load_clips_backward_compatible (rows : List Row)
    (cats colors : List String) (hnd : colors.Nodup) (c : String)
    (hc : c ∈ cats) (i : Nat) (h1 : 1 ≤ i) (hi : i ≤ colors.length) :
    categoryDataAt rows cats colors c i =
      some (nestedCount rows cats colors c
        (colors.get ⟨i - 1, by omega⟩)) := by
  have houter : categoryDataFixed rows cats colors c =
      some (buildDict (colorIndexD colors)
        (fun col => nestedCount rows cats colors c col) colors
        (fun _ => none)) := by
    unfold categoryDataFixed
    exact buildDict_lookup id _ cats _ c hc
      (fun y _ hy => by have h2 : y = c := hy; rw [h2])
  unfold categoryDataAt
  rw [houter]
  have hlen : i - 1 < colors.length := by omega
  have hkey : colorIndexD colors (colors.get ⟨i - 1, hlen⟩) = i := by
    rw [colorIndexD_get colors hnd (i - 1) hlen]
    omega
  have hinj : ∀ y ∈ colors,
      colorIndexD colors y = colorIndexD colors (colors.get ⟨i - 1, hlen⟩) →
      nestedCount rows cats colors c y =
        nestedCount rows cats colors c (colors.get ⟨i - 1, hlen⟩) := by
    intro y hy hk
    rcases List.mem_iff_get.mp hy with ⟨⟨j, hj⟩, hget⟩
    rw [← hget] at hk ⊢
    rw [colorIndexD_get colors hnd j hj,
      colorIndexD_get colors hnd (i - 1) hlen] at hk
    have : j = i - 1 := by omega
    subst this
    rfl
  have hfinal := buildDict_lookup (colorIndexD colors)
    (fun col => nestedCount rows cats colors c col) colors
    (fun _ => none) (colors.get ⟨i - 1, hlen⟩)
    (List.get_mem colors _ _) hinj
  rw [hkey] at hfinal
  show buildDict (colorIndexD colors)
    (fun col => nestedCount rows cats colors c col) colors
    (fun _ => none) i = _
  rw [hfinal]

/-- Sum of a function over a duplicate-free list equals the sum over
its finset of elements. -/
lemma sum_map_toFinset (l : List Item3) (hl : l.Nodup) (f : Item3 → Nat) :
    ∑ x ∈ l.toFinset, f x = (l.map f).sum := by
  induction l with
  | nil => simp
  | cons a t ih =>
      rcases List.nodup_cons.mp hl with ⟨ha, ht⟩
      rw [List.toFinset_cons, Finset.sum_insert (by simpa using ha)]
      simp [ih ht]

/-- The filtered intersection sum of the code equals the full
distinct-item sum of the claim: items of `seq2` missing from `seq1`
contribute `min(0, _) = 0`, and items of `seq1` filtered out (absent
from `seq2`) contribute `min(_, 0) = 0`. -/
lemma commonItems_eq_specOverlap (s1 s2 : List Item3) :
    commonItemsCount s1 s2 = specMultisetOverlap s1 s2 := by
  have h1 : (s1.dedup.filter (fun x => decide (x ∈ s2))).Nodup :=
    s1.nodup_dedup.filter _
  have h2 : ((s1 ++ s2).dedup).Nodup := (s1 ++ s2).nodup_dedup
  unfold commonItemsCount specMultisetOverlap
  rw [← sum_map_toFinset _ h1, ← sum_map_toFinset _ h2]
  refine Finset.sum_subset ?_ ?_
  · intro x hx
    simp only [List.mem_toFinset, List.mem_filter, List.mem_dedup,
      decide_eq_true_eq] at hx
    simp only [List.mem_toFinset, List.mem_dedup, List.mem_append]
    exact Or.inl hx.1
  · intro x hx hnx
    simp only [List.mem_toFinset, List.mem_dedup, List.mem_append] at hx
    simp only [List.mem_toFinset, List.mem_filter, List.mem_dedup,
      decide_eq_true_eq, not_and] at hnx
    by_cases hx1 : x ∈ s1
    · have hx2 : x ∉ s2 := hnx hx1
      have : s2.count x = 0 := List.count_eq_zero.mpr hx2
      simp [this]
    · have : s1.count x = 0 := List.count_eq_zero.mpr hx1
      simp [this]

/-- C9 (amended).  Content similarity: for every pair of equal-length
nonempty sequences, `calculate_sequence_similarity` returns normally
and its `content_similarity` equals the multiset overlap — the sum
over distinct items of the minimum of the occurrence counts in the two
sequences — divided by the common length.  (On the equal-length empty
pair the function instead raises `ZeroDivisionError`, see the
counterexample.) -/
theorem content_similarity_multiset_overlap (s1 s2 : List Item3)
    (hlen : s1.length = s2.length) (hne : s1 ≠ []) :
    ∃ r : SimRes,
      calcSequenceSimilarity s1 s2 = Except.ok (SimReturn.res r) ∧
      r.contentSimilarity =
        (specMultisetOverlap s1 s2 : ℚ) / (s1.length : ℚ) := by
  have h0 : ¬(s1.length ≠ s2.length) := by simp [hlen]
  have h1 : ¬(s1.length = 0) := by
    simpa [List.length_eq_zero] using hne
  have h2 : ¬(totalUniqueCount s1 s2 = 0) := by
    unfold totalUniqueCount
    simp only [List.length_eq_zero, List.dedup_eq_nil, List.append_eq_nil]
    intro hcon
    exact hne hcon.1
  refine ⟨simResOf s1 s2, ?_, ?_⟩
  · unfold calcSequenceSimilarity
    rw [if_neg h0, if_neg h1, if_neg h2]
  · show (commonItemsCount s1 s2 : ℚ) / (s1.length : ℚ) = _
    rw [commonItems_eq_specOverlap]

/-- A complete three-step run of the builder loop on the `dataEx` pool
with `min_spacing = 1` and `target_per_category = 3 // 2 = 1`,
producing the sequence a-b-a. -/
lemma buildsABA :
    Builds (Prod.fst : Item3 → String) 1 1 (availableItems dataEx ["a", "b"] [1])
      [("a", 1, 1), ("b", 1, 1), ("a", 2, 1)] [] := by
  have h1 : Builds (Prod.fst : Item3 → String) 1 1
      (availableItems dataEx ["a", "b"] [1])
      ([] ++ [(("a", 1, 1) : Item3)])
      ((availableItems dataEx ["a", "b"] [1]).erase ("a", 1, 1)) :=
    Builds.step Builds.nil (by decide) (by decide) (by decide) (by decide)
  have h2 : Builds (Prod.fst : Item3 → String) 1 1
      (availableItems dataEx ["a", "b"] [1])
      (([] ++ [(("a", 1, 1) : Item3)]) ++ [(("b", 1, 1) : Item3)])
      (((availableItems dataEx ["a", "b"] [1]).erase ("a", 1, 1)).erase ("b", 1, 1)) :=
    Builds.step h1 (by decide) (by decide) (by decide) (by decide)
  have h3 : Builds (Prod.fst : Item3 → String) 1 1
      (availableItems dataEx ["a", "b"] [1])
      ((([] ++ [(("a", 1, 1) : Item3)]) ++ [(("b", 1, 1) : Item3)]) ++ [(("a", 2, 1) : Item3)])
      ((((availableItems dataEx ["a", "b"] [1]).erase ("a", 1, 1)).erase ("b", 1, 1)).erase ("a", 2, 1)) :=
    Builds.step h2 (by decide) (by decide) (by decide) (by decide)
  exact h3

/-- A complete run of the builder loop on the pool generated by the
duplicated request `["a", "a"]` with `min_spacing = 0`: the duplicated
tuple `("a", 1, 1)` is placed twice. -/
lemma buildsDup :
    Builds (Prod.fst : Item3 → String) 0 (2 / 2)
      (availableItems dataDup ["a", "a"] [1])
      [("a", 1, 1), ("a", 1, 1)] [("a", 2, 1), ("a", 2, 1)] := by
  have h1 : Builds (Prod.fst : Item3 → String) 0 (2 / 2)
      (availableItems dataDup ["a", "a"] [1])
      ([] ++ [(("a", 1, 1) : Item3)])
      ((availableItems dataDup ["a", "a"] [1]).erase ("a", 1, 1)) :=
    Builds.step Builds.nil (by decide) (by decide) (by decide) (by decide)
  have h2 : Builds (Prod.fst : Item3 → String) 0 (2 / 2)
      (availableItems dataDup ["a", "a"] [1])
      (([] ++ [(("a", 1, 1) : Item3)]) ++ [(("a", 1, 1) : Item3)])
      (((availableItems dataDup ["a", "a"] [1]).erase ("a", 1, 1)).erase ("a", 1, 1)) :=
    Builds.step h1 (by decide) (by decide) (by decide) (by decide)
  exact h2

/-- A complete run of the flexible builder loop on the nested pool
`{a: 2, b: 1}` with `min_spacing = 0` and target length 3
(`target_per_category = 3 // 2 = 1`), producing a-b-a. -/
lemma buildsFlex :
    Builds (Prod.fst : String × Nat → String) 0 (3 / 2)
      (availableItemsFlexSingle nestedFlexEx ["a", "b"])
      [("a", 1), ("b", 1), ("a", 2)] [] := by
  have h1 : Builds (Prod.fst : String × Nat → String) 0 (3 / 2)
      (availableItemsFlexSingle nestedFlexEx ["a", "b"])
      ([] ++ [(("a", 1) : String × Nat)])
      ((availableItemsFlexSingle nestedFlexEx ["a", "b"]).erase ("a", 1)) :=
    Builds.step Builds.nil (by decide) (by decide) (by decide) (by decide)
  have h2 : Builds (Prod.fst : String × Nat → String) 0 (3 / 2)
      (availableItemsFlexSingle nestedFlexEx ["a", "b"])
      (([] ++ [(("a", 1) : String × Nat)]) ++ [(("b", 1) : String × Nat)])
      (((availableItemsFlexSingle nestedFlexEx ["a", "b"]).erase ("a", 1)).erase ("b", 1)) :=
    Builds.step h1 (by decide) (by decide) (by decide) (by decide)
  have h3 : Builds (Prod.fst : String × Nat → String) 0 (3 / 2)
      (availableItemsFlexSingle nestedFlexEx ["a", "b"])
      ((([] ++ [(("a", 1) : String × Nat)]) ++ [(("b", 1) : String × Nat)]) ++ [(("a", 2) : String × Nat)])
      ((((availableItemsFlexSingle nestedFlexEx ["a", "b"]).erase ("a", 1)).erase ("b", 1)).erase ("a", 2)) :=
    Builds.step h2 (by decide) (by decide) (by decide) (by decide)
  exact h3

/-- Witness for C1: the a-b-a run is a real build, its positions 0 and
2 share the primary category a, and their distance exceeds the spacing
1. -/
theorem builder_spacing_invariant_witness :
    Builds (Prod.fst : Item3 → String) 1 1 (availableItems dataEx ["a", "b"] [1])
      [("a", 1, 1), ("b", 1, 1), ("a", 2, 1)] [] ∧ (1 : Nat) < 2 - 0 :=
  ⟨buildsABA,
    builder_spacing_invariant Prod.fst buildsABA 0 2 (by decide) (by decide) rfl⟩

/-- Witness for C5: in the a-b-a run with target `3 / 2` the usage
count of category a stays within the soft cap. -/
theorem builder_balance_bound_witness :
    Builds (Prod.fst : Item3 → String) 1 (3 / 2)
      (availableItems dataEx ["a", "b"] [1])
      [("a", 1, 1), ("b", 1, 1), ("a", 2, 1)] [] ∧
    catCount (Prod.fst : Item3 → String)
      [("a", 1, 1), ("b", 1, 1), ("a", 2, 1)] "a" ≤ 3 / 2 + 2 :=
  ⟨buildsABA, builder_balance_bound Prod.fst buildsABA "a"⟩

/-- Witness for C6: duplicate-free request lists and the resulting
duplicate-free a-b-a run. -/
theorem generate_sequence_no_duplicates_witness :
    (["a", "b"] : List String).Nodup ∧ ([1] : List Nat).Nodup ∧
    ([("a", 1, 1), ("b", 1, 1), ("a", 2, 1)] : List Item3).Nodup :=
  ⟨by decide, by decide,
    generate_sequence_no_duplicates (by decide) (by decide) buildsABA⟩

/-- Counterexample for C6 as originally stated: with the duplicated
category request `["a", "a"]` the feasibility and supply gates of
`generate_sequence` pass (target length 2), yet a complete run of the
builder loop returns a sequence containing the tuple `("a", 1, 1)`
twice. -/
theorem generate_sequence_no_duplicates_counterexample :
    generateSequenceGate dataDup ["a", "a"] [1] 2 0 = Except.ok () ∧
    Builds (Prod.fst : Item3 → String) 0 (2 / 2)
      (availableItems dataDup ["a", "a"] [1])
      [("a", 1, 1), ("a", 1, 1)] [("a", 2, 1), ("a", 2, 1)] ∧
    ([("a", 1, 1), ("a", 1, 1)] : List Item3).length = 2 ∧
    ¬ ([("a", 1, 1), ("a", 1, 1)] : List Item3).Nodup :=
  ⟨by with_unfolding_all rfl, buildsDup, by decide, by decide⟩

/-- Witness for C3: on the one-item pool with target length 2 the
analyzer reports the bottleneck and `generate_sequence` raises before
building. -/
theorem feasibility_gate_strict_witness :
    analyzeFeasibility dataInfeas ["a"] [1] 2 2 = Except.ok repInfeas ∧
    repInfeas.bottleneckCategories ≠ [] ∧
    (repInfeas.recommendation = "IMPOSSIBLE - Bottleneck categories: " ++
        String.intercalate ", " repInfeas.bottleneckCategories ∧
      generateSequenceGate dataInfeas ["a"] [1] 2 2 =
        Except.error ("Sequence not feasible: " ++ repInfeas.recommendation)) :=
  ⟨by with_unfolding_all rfl, by decide,
    feasibility_gate_strict dataInfeas ["a"] [1] 2 2 repInfeas
      (by with_unfolding_all rfl) (by decide)⟩

/-- Counterexample for C3 as originally stated: on the inventory
`{a: 2, b: 1}` with target length 3 the analyzer reports IMPOSSIBLE
(group b has 1 < 1.5), yet `generate_sequence_flexible`, which never
runs the analyzer, passes its only pre-construction check and a
complete run returns a full-length sequence with no infeasibility
error. -/
theorem feasibility_gate_strict_counterexample :
    (analyzeFeasibility dataEx ["a", "b"] [1] 3 0).toOption.map
        FeasReport.recommendation =
      some "IMPOSSIBLE - Bottleneck categories: b" ∧
    flexGate (availableItemsFlexSingle nestedFlexEx ["a", "b"]) 3 =
      Except.ok () ∧
    Builds (Prod.fst : String × Nat → String) 0 (3 / 2)
      (availableItemsFlexSingle nestedFlexEx ["a", "b"])
      [("a", 1), ("b", 1), ("a", 2)] [] ∧
    ([("a", 1), ("b", 1), ("a", 2)] : List (String × Nat)).length = 3 :=
  ⟨by with_unfolding_all rfl, rfl, buildsFlex, by decide⟩

/-- Counterexample for C2 as originally stated: when the target length
2 exceeds the single available item,
`RealWorldItemGenerator.generate_sequence` raises `ValueError` instead
of returning a clamped sequence of length `min(2, 1) = 1`. -/
theorem spaced_sequence_length_counterexample :
    generateSequenceGate dataInfeas ["a"] [1] 2 2 =
      Except.error
        ("Sequence not feasible: IMPOSSIBLE - Bottleneck categories: a") ∧
    min 2 (availableItems dataInfeas ["a"] [1]).length = 1 :=
  ⟨by with_unfolding_all rfl, by decide⟩

/-- Witness for C2 (amended): the fallback of
`generate_spaced_sequence` on a one-clip pool with requested length 5
returns the clamped one-clip sequence. -/
theorem spaced_sequence_length_witness :
    SpacedResult 2 [mclipA] 5 ([mclipA].take (clampTarget [mclipA] 5)) ∧
    ([mclipA].take (clampTarget [mclipA] 5)).length = min 5 [mclipA].length :=
  ⟨@SpacedResult.fallback 2 [mclipA] 5 [mclipA] (List.Perm.refl [mclipA]),
    spaced_sequence_length
      (@SpacedResult.fallback 2 [mclipA] 5 [mclipA] (List.Perm.refl [mclipA]))⟩

/-- Witness for C4 (amended): the pool with safety ratio exactly 6/5
has no bottleneck and receives the RISKY recommendation. -/
theorem recommendation_thresholds_witness :
    analyzeFeasibility dataRisky ["a"] [1] 5 2 = Except.ok repRisky ∧
    repRisky.bottleneckCategories = [] ∧
    minSafetyRatio dataRisky ["a"] [1] 5 = some (6/5) ∧
    repRisky.recommendation = "RISKY - May fail due to spacing constraints" :=
  ⟨by with_unfolding_all rfl, by decide, by with_unfolding_all rfl,
    ((recommendation_thresholds dataRisky ["a"] [1] 5 2 repRisky
        (by with_unfolding_all rfl)).1 (by decide) (6/5) (by with_unfolding_all rfl)).2.2.2 (le_refl _)⟩

/-- Counterexample for C4 as originally stated: at the boundary ratio
exactly 1.2 (six available, five needed) the code answers RISKY while
the claim thresholds place 1.2 in the MARGINAL band. -/
theorem recommendation_thresholds_counterexample :
    (analyzeFeasibility dataRisky ["a"] [1] 5 2).toOption.map
        FeasReport.recommendation =
      some "RISKY - May fail due to spacing constraints" ∧
    (analyzeFeasibility dataRisky ["a"] [1] 5 2).toOption.map
        FeasReport.bottleneckCategories = some [] ∧
    minSafetyRatio dataRisky ["a"] [1] 5 = some (6/5) ∧
    claimedRecommendation (6/5) =
      "MARGINAL - Should work but little room for error" :=
  ⟨by with_unfolding_all rfl, by with_unfolding_all rfl, by with_unfolding_all rfl, by with_unfolding_all rfl⟩

/-- C8.  Round-trip export fails on the fixed-arity path: the loader
stores the clip of `rowsExport` under the key
`("cooking", "red", 1)` — `(category, color_name, item_id)` — but
`export_sequence_to_csv` looks the item `("cooking", 1, 1)` up under
`(category, variation_index, item_id) = ("cooking", 1, 1)`, which is
never an inventory key, so the export falls back to the synthesized
row `(1, "cooking_item01_red", "")` instead of resolving the original
name `clipA` and link `urlA`. -/
theorem export_key_mismatch :
    invLookup invExport [PyVal.s "cooking", PyVal.n 1, PyVal.n 1] = none ∧
    invLookup invExport [PyVal.s "cooking", PyVal.s "red", PyVal.n 1] =
      some ⟨"clipA", "urlA", "cooking", "red"⟩ ∧
    exportSequenceFixed invExport (indexColorMap ["red"]) [("cooking", 1, 1)] =
      [(1, "cooking_item01_red", "")] :=
  ⟨by with_unfolding_all rfl, by with_unfolding_all rfl, by with_unfolding_all rfl⟩

/-- Witness for C9 (amended): two equal singleton sequences have
content similarity `1 / 1`. -/
theorem content_similarity_witness :
    ([(("a", 1, 1) : Item3)].length = [(("a", 1, 1) : Item3)].length) ∧
    ([(("a", 1, 1) : Item3)] ≠ []) ∧
    (∃ r : SimRes,
      calcSequenceSimilarity [("a", 1, 1)] [("a", 1, 1)] =
        Except.ok (SimReturn.res r) ∧
      r.contentSimilarity =
        (specMultisetOverlap [("a", 1, 1)] [("a", 1, 1)] : ℚ) /
          (([(("a", 1, 1) : Item3)]).length : ℚ)) :=
  ⟨rfl, by decide,
    content_similarity_multiset_overlap [("a", 1, 1)] [("a", 1, 1)] rfl
      (by decide)⟩

/-- Counterexample for C9 as originally stated: on the equal-length
empty pair the function raises `ZeroDivisionError` instead of
returning a content similarity. -/
theorem content_similarity_counterexample :
    calcSequenceSimilarity [] [] =
      Except.error "ZeroDivisionError: division by zero" := rfl

/-- Witness for C10 (amended): on a two-color inventory the fixed
loader cell at index 2 equals the flexible count of the second
color. -/
theorem load_clips_backward_compatible_witness :
    (["red", "blue"] : List String).Nodup ∧ ("a" : String) ∈ ["a"] ∧
    (1 : Nat) ≤ 2 ∧ (2 : Nat) ≤ (["red", "blue"] : List String).length ∧
    categoryDataAt rowsRT ["a"] ["red", "blue"] "a" 2 =
      some (nestedCount rowsRT ["a"] ["red", "blue"] "a"
        ((["red", "blue"] : List String).get ⟨2 - 1, by decide⟩)) :=
  ⟨by decide, by decide, by decide, by decide,
    load_clips_backward_compatible rowsRT ["a"] ["red", "blue"] (by decide)
      "a" (by decide) 2 (by decide) (by decide)⟩

/-- Counterexample for C10 as originally stated: with the duplicated
color list `["red", "red"]` the index dictionary maps red to 2, index
1 is never written, and the fixed loader cell at index 1 is absent
while the flexible count of `colors[0] = red` is 1. -/
theorem load_clips_backward_compatible_counterexample :
    categoryDataAt rowsDup ["a"] ["red", "red"] "a" 1 = none ∧
    nestedCount rowsDup ["a"] ["red", "red"] "a" "red" = 1 ∧
    categoryDataAt rowsDup ["a"] ["red", "red"] "a" 2 = some 1 :=
  ⟨by with_unfolding_all rfl, by with_unfolding_all rfl, by with_unfolding_all rfl⟩

end FfmpegProcessor

